import Mathlib

/-!
Verification development for the BLTouch probe controller
(klippy/extras/bltouch.py).  The controller state and every operation of
the class BLTouchEndstopWrapper are embedded as executable Lean
definitions over exact rational print times.  External collaborators
(the mcu clock translation, the toolhead, the endstop sampling
primitive) are modelled from the narrow interfaces the specification
describes; their effects on the controller are recorded in an explicit
event log so that frame conditions can be stated.
-/

namespace BLTouch

/-- Signal period of the control pin waveform: 0.0256 seconds. -/
def SIGNAL_PERIOD : ℚ := 16 / 625

/-- Minimum command duration: 4 signal periods. -/
def MIN_CMD_TIME : ℚ := 4 * SIGNAL_PERIOD

/-- Self test retest interval: 5 minutes. -/
def TEST_TIME : ℚ := 5 * 60

/-- Fixed maximum rest time handed to the endstop sampler: 1 ms. -/
def ENDSTOP_REST_TIME : ℚ := 1 / 1000

/-- Sample interval of the verification window: 15 microseconds. -/
def ENDSTOP_SAMPLE_TIME : ℚ := 15 / 1000000

/-- Sample count of the verification window. -/
def ENDSTOP_SAMPLE_COUNT : ℕ := 4

/-- The closed set of actuation commands (the keys of the Commands
dictionary; noCmd stands for the Python key None). -/
inductive BLTCmd where
  | noCmd
  | pin_down
  | touch_mode
  | pin_up
  | self_test
  | reset
deriving DecidableEq, Repr

/-- Pulse width of each command in seconds (the Commands dictionary). -/
def Commands : BLTCmd → ℚ
  | .noCmd => 0
  | .pin_down => 7 / 10000
  | .touch_mode => 12 / 10000
  | .pin_up => 15 / 10000
  | .self_test => 18 / 10000
  | .reset => 22 / 10000

/-- Observable calls the controller makes on its collaborators: pwm
programming, toolhead dwell, the realtime estimated print time query of
sync_mcu_print_time, and the four endstop channel calls. -/
inductive Event where
  | setPwm (time : ℚ) (value : ℚ)
  | dwell (delay : ℚ)
  | estPrintTime
  | armSense (print_time sample_time : ℚ) (sample_count : ℕ) (rest_time : ℚ)
      (triggered : Bool)
  | waitSense (end_time : ℚ)
  | sensePrepare
  | senseFinalize
deriving DecidableEq, Repr

/-- One stepper driven through the endstop: its commanded position
(get_commanded_position / set_commanded_position) and its hardware
position counter (get_mcu_position). -/
structure Stepper where
  commanded_position : ℚ
  mcu_position : ℤ
deriving DecidableEq, Repr

/-- Configuration values read once at construction, plus the mcu clock
frequency in ticks per second used by the clock translation. -/
structure BLTConfig where
  freq : ℕ
  triggered_on_pin_up_touch_mode : Bool
  triggered_on_pin_up : Bool
  pin_move_time_config : ℚ
  z_offset : ℚ
deriving DecidableEq, Repr

/-- The mutable state of one BLTouchEndstopWrapper instance, together
with the toolhead timeline cursor and the event log. -/
structure BLTState where
  next_cmd_time : ℚ
  next_test_time : ℚ
  last_move_time : ℚ
  steppers : List Stepper
  start_mcu_pos : List ℤ
  events : List Event
deriving DecidableEq, Repr

/-- State at construction: both cursors start at 0. -/
def initState (steppers : List Stepper) : BLTState :=
  { next_cmd_time := 0
    next_test_time := 0
    last_move_time := 0
    steppers := steppers
    start_mcu_pos := []
    events := [] }

/-- pin_move_time as computed in the constructor: the configured value
(default 0.200) maxed with MIN_CMD_TIME and rounded up to a whole
multiple of SIGNAL_PERIOD with math.ceil. -/
def pin_move_time (cfg : BLTConfig) : ℚ :=
  (⌈max cfg.pin_move_time_config MIN_CMD_TIME / SIGNAL_PERIOD⌉ : ℚ) * SIGNAL_PERIOD

/-- Modelled from the spec: mcu.print_time_to_clock, the clock
translation collaborator (not under src), converts a timeline value to
an absolute integer hardware tick count by truncation at frequency
freq. -/
def print_time_to_clock (freq : ℕ) (t : ℚ) : ℤ := ⌊t * freq⌋

/-- Modelled from the spec: mcu.seconds_to_clock converts a duration in
seconds to an integer tick count by truncation. -/
def seconds_to_clock (freq : ℕ) (d : ℚ) : ℤ := ⌊d * freq⌋

/-- Modelled from the spec: mcu.clock_to_print_time converts an
absolute tick count back to a timeline value. -/
def clock_to_print_time (freq : ℕ) (c : ℤ) : ℚ := (c : ℚ) / freq

/-- The new next_cmd_time produced by send_cmd: the cursor and the
duration (floored at MIN_CMD_TIME) go to ticks, are added, and come
back to a timeline value. -/
def sendCmdTime (freq : ℕ) (t d : ℚ) : ℚ :=
  clock_to_print_time freq
    (print_time_to_clock freq t + seconds_to_clock freq (max d MIN_CMD_TIME))

/-- sync_mcu_print_time: query the realtime estimated print time (the
event records the query; est_time is the value the collaborator
returned) and pull next_cmd_time up to est_time + MIN_CMD_TIME. -/
def sync_mcu_print_time (est_time : ℚ) (s : BLTState) : BLTState :=
  { s with
    next_cmd_time := max s.next_cmd_time (est_time + MIN_CMD_TIME)
    events := s.events ++ [Event.estPrintTime] }

/-- sync_print_time: reconcile with the toolhead last move time; when
the cursor is ahead, dwell the toolhead by the difference, otherwise
advance the cursor to the toolhead time. -/
def sync_print_time (s : BLTState) : BLTState :=
  if s.last_move_time < s.next_cmd_time then
    { s with
      last_move_time := s.last_move_time + (s.next_cmd_time - s.last_move_time)
      events := s.events ++ [Event.dwell (s.next_cmd_time - s.last_move_time)] }
  else
    { s with next_cmd_time := s.last_move_time }

/-- send_cmd: program the pwm at the current cursor with the command
duty cycle, advance the cursor through the tick round trip, and return
the new cursor value (the second component). -/
def send_cmd (cfg : BLTConfig) (cmd : BLTCmd) (duration : ℚ) (s : BLTState) :
    BLTState × ℚ :=
  let t := sendCmdTime cfg.freq s.next_cmd_time duration
  ({ s with
      next_cmd_time := t
      events := s.events ++ [Event.setPwm s.next_cmd_time (Commands cmd / SIGNAL_PERIOD)] },
   t)

/-- Modelled from the spec: the endstop sampling collaborator (not
under src).  success is whether home_wait confirms the expected state
by the window end; pos gives the commanded position home_wait leaves on
the stepper at each index (the sensing primitive exposes per axis
commanded position get and set for speculative motion rollback). -/
structure SenseOracle where
  success : Bool
  pos : ℕ → ℚ

/-- Commanded positions of the steppers as home_wait leaves them. -/
def applySense (o : SenseOracle) (l : List Stepper) : List Stepper :=
  l.enum.map fun p => { p.2 with commanded_position := o.pos p.1 }

/-- set_commanded_position of each snapshotted value over the zip of
the stepper list with the snapshot list. -/
def restorePositions (l : List Stepper) (prev : List ℚ) : List Stepper :=
  (l.zip prev).map fun p => { p.1 with commanded_position := p.2 }

/-- verify_state: snapshot commanded positions, arm the endstop over
the window, wait; on timeout raise the EndstopError and return (the
restore loop below the try block does not run); on success run the
restore loop. -/
def verify_state (o : SenseOracle) (check_start_time check_end_time : ℚ)
    (triggered : Bool) (msg : String) (s : BLTState) : BLTState × Option String :=
  let prev_positions := s.steppers.map fun st => st.commanded_position
  let armed :=
    { s with
      events := s.events ++
        [Event.armSense check_start_time ENDSTOP_SAMPLE_TIME ENDSTOP_SAMPLE_COUNT
          ENDSTOP_REST_TIME triggered] }
  let waited :=
    { armed with
      steppers := applySense o armed.steppers
      events := armed.events ++ [Event.waitSense check_end_time] }
  if o.success then
    ({ waited with steppers := restorePositions waited.steppers prev_positions }, none)
  else
    (waited, some ("BLTouch failed to " ++ msg))

/-- raise_probe: reset, pin_up for pin_move_time, idle, then verify the
window with the configured triggered_on_pin_up expectation. -/
def raise_probe (cfg : BLTConfig) (o : SenseOracle) (s : BLTState) :
    BLTState × Option String :=
  let p1 := send_cmd cfg .reset MIN_CMD_TIME s
  let p2 := send_cmd cfg .pin_up (pin_move_time cfg) p1.1
  let p3 := send_cmd cfg .noCmd MIN_CMD_TIME p2.1
  verify_state o p2.2 p3.2 cfg.triggered_on_pin_up "raise probe" p3.1

/-- printer_state on connect: sync_mcu_print_time then raise_probe. -/
def printer_state_connect (cfg : BLTConfig) (est_time : ℚ) (o : SenseOracle)
    (s : BLTState) : BLTState × Option String :=
  raise_probe cfg o (sync_mcu_print_time est_time s)

/-- The slow path of test_sensor: sync, reset for pin_move_time,
touch_mode, idle, verify expecting triggered, then on success schedule
the next test at the window end plus TEST_TIME and sync again. -/
def test_sensor_run (cfg : BLTConfig) (o : SenseOracle) (s : BLTState) :
    BLTState × Option String :=
  let s1 := sync_print_time s
  let p1 := send_cmd cfg .reset (pin_move_time cfg) s1
  let p2 := send_cmd cfg .touch_mode MIN_CMD_TIME p1.1
  let p3 := send_cmd cfg .noCmd MIN_CMD_TIME p2.1
  let r := verify_state o p1.2 p2.2 true "verify sensor state" p3.1
  match r.2 with
  | some e => (r.1, some e)
  | none =>
      (sync_print_time { r.1 with next_test_time := p2.2 + TEST_TIME }, none)

/-- test_sensor: nothing to do unless pin up in touch mode is expected
to trigger and plain pin up is not; throttle by next_test_time, pushing
it forward from the current motion time on a skip. -/
def test_sensor (cfg : BLTConfig) (o : SenseOracle) (s : BLTState) :
    BLTState × Option String :=
  if !cfg.triggered_on_pin_up_touch_mode || cfg.triggered_on_pin_up then
    (s, none)
  else if s.last_move_time < s.next_test_time then
    ({ s with next_test_time := s.last_move_time + TEST_TIME }, none)
  else
    test_sensor_run cfg o s

/-- The verification window start of the sensor test slow path: the
cursor value returned by the reset command. -/
def test_check_start (cfg : BLTConfig) (s : BLTState) : ℚ :=
  (send_cmd cfg .reset (pin_move_time cfg) (sync_print_time s)).2

/-- The verification window end of the sensor test slow path: the
cursor value returned by the touch_mode command. -/
def test_check_end (cfg : BLTConfig) (s : BLTState) : ℚ :=
  (send_cmd cfg .touch_mode MIN_CMD_TIME
    (send_cmd cfg .reset (pin_move_time cfg) (sync_print_time s)).1).2

/-- The verification call of the sensor test slow path, spelled out. -/
def test_verify (cfg : BLTConfig) (o : SenseOracle) (s : BLTState) :
    BLTState × Option String :=
  verify_state o (test_check_start cfg s) (test_check_end cfg s) true
    "verify sensor state"
    (send_cmd cfg .noCmd MIN_CMD_TIME
      (send_cmd cfg .touch_mode MIN_CMD_TIME
        (send_cmd cfg .reset (pin_move_time cfg) (sync_print_time s)).1).1).1

/-- The part of home_prepare after the sensor test: sync, pin_down for
pin_move_time - MIN_CMD_TIME, idle, sync, delegate prepare to the
endstop, then snapshot every stepper hardware position counter. -/
def prepTail (cfg : BLTConfig) (s1 : BLTState) : BLTState :=
  let s2 := sync_print_time s1
  let p1 := send_cmd cfg .pin_down (pin_move_time cfg - MIN_CMD_TIME) s2
  let p2 := send_cmd cfg .noCmd MIN_CMD_TIME p1.1
  let s5 := sync_print_time p2.1
  let s6 := { s5 with events := s5.events ++ [Event.sensePrepare] }
  { s6 with start_mcu_pos := s6.steppers.map fun st => st.mcu_position }

/-- home_prepare: run the sensor test (propagating its error), then the
deploy and snapshot tail. -/
def home_prepare (cfg : BLTConfig) (o : SenseOracle) (s : BLTState) :
    BLTState × Option String :=
  let r := test_sensor cfg o s
  match r.2 with
  | some e => (r.1, some e)
  | none => (prepTail cfg r.1, none)

/-- The deploy check of home_finalize: true when some snapshotted
stepper still reads its snapshotted hardware position counter. -/
def deployFailed (snap : List ℤ) (l : List Stepper) : Bool :=
  (snap.zip l).any fun p => p.2.mcu_position == p.1

/-- The part of home_finalize after the probe raise: sync with the
toolhead, fail when any snapshotted stepper never moved, otherwise
delegate finalize to the endstop. -/
def finalizeTail (s2 : BLTState) : BLTState × Option String :=
  let s3 := sync_print_time s2
  if deployFailed s3.start_mcu_pos s3.steppers then
    (s3, some "BLTouch failed to deploy")
  else
    ({ s3 with events := s3.events ++ [Event.senseFinalize] }, none)

/-- home_finalize: sync from the realtime estimate, raise the probe
(propagating its error), then the deploy verification tail. -/
def home_finalize (cfg : BLTConfig) (est_time : ℚ) (o : SenseOracle)
    (s : BLTState) : BLTState × Option String :=
  let r := raise_probe cfg o (sync_mcu_print_time est_time s)
  match r.2 with
  | some e => (r.1, some e)
  | none => finalizeTail r.1

/-- home_start: clamp rest_time to ENDSTOP_REST_TIME and delegate the
arm call to the endstop with the other arguments unchanged. -/
def home_start (print_time sample_time : ℚ) (sample_count : ℕ) (rest_time : ℚ)
    (s : BLTState) : BLTState :=
  { s with
    events := s.events ++
      [Event.armSense print_time sample_time sample_count
        (min rest_time ENDSTOP_REST_TIME) true] }

/-- One controller operation, for stating properties over arbitrary
call sequences.  advance is external toolhead activity moving the
motion timeline forward; the oracle and realtime arguments are the
collaborator responses consumed by the operation. -/
inductive Op where
  | advance (d : ℚ)
  | connect (est : ℚ) (o : SenseOracle)
  | syncMcu (est : ℚ)
  | syncPrint
  | cmd (c : BLTCmd) (d : ℚ)
  | selfTest (o : SenseOracle)
  | prepare (o : SenseOracle)
  | finalize (est : ℚ) (o : SenseOracle)
  | armEndstop (pt st : ℚ) (sc : ℕ) (rt : ℚ)

/-- Run one operation; an EndstopError message is returned alongside
the state the instance is left in. -/
def runOp (cfg : BLTConfig) (op : Op) (s : BLTState) : BLTState × Option String :=
  match op with
  | .advance d => ({ s with last_move_time := s.last_move_time + d }, none)
  | .connect est o => printer_state_connect cfg est o s
  | .syncMcu est => (sync_mcu_print_time est s, none)
  | .syncPrint => (sync_print_time s, none)
  | .cmd c d => ((send_cmd cfg c d s).1, none)
  | .selfTest o => test_sensor cfg o s
  | .prepare o => home_prepare cfg o s
  | .finalize est o => home_finalize cfg est o s
  | .armEndstop pt st sc rt => (home_start pt st sc rt s, none)

/-- Run a sequence of operations, keeping the state across raised
errors (the caller catches them and carries on with the instance). -/
def execList (cfg : BLTConfig) : List Op → BLTState → BLTState
  | [], s => s
  | op :: ops, s => execList cfg ops (runOp cfg op s).1

/-- An operation is admissible when external toolhead activity only
moves the motion timeline forward. -/
def opOK : Op → Bool
  | .advance d => decide (0 ≤ d)
  | _ => true

/-- Reachability invariant tying the self test cursor to the motion
timeline: the next scheduled test is at most one retest interval ahead
of the toolhead. -/
def Inv (s : BLTState) : Prop :=
  s.next_test_time ≤ s.last_move_time + TEST_TIME

instance (s : BLTState) : Decidable (Inv s) := by
  unfold Inv; infer_instance

/-- Recognizer for the realtime estimated print time query event. -/
def Event.isEst : Event → Bool
  | .estPrintTime => true
  | _ => false

/-- Recognizer for the endstop finalize delegation event. -/
def Event.isFinalizeHook : Event → Bool
  | .senseFinalize => true
  | _ => false

/-- Recognizer for pwm command issuance events. -/
def Event.isPwm : Event → Bool
  | .setPwm _ _ => true
  | _ => false

/-- Number of logged events matching a recognizer. -/
def eventCount (p : Event → Bool) (s : BLTState) : ℕ :=
  s.events.countP p

/-- A concrete default style configuration used by witnesses: 25 tick
per second clock, default deployment policy flags, pin_move_time 0.2,
z_offset 2.5. -/
def cfgW : BLTConfig :=
  { freq := 25
    triggered_on_pin_up_touch_mode := true
    triggered_on_pin_up := false
    pin_move_time_config := 1 / 5
    z_offset := 5 / 2 }

/-- The witness configuration with stow in touch mode not expected to
trigger. -/
def cfgNoTouch : BLTConfig :=
  { cfgW with triggered_on_pin_up_touch_mode := false }

/-- A sensing channel that confirms the expected state and leaves every
commanded position at 0. -/
def okOracle : SenseOracle := { success := true, pos := fun _ => 0 }

/-- A sensing channel that times out and leaves every commanded
position at 7. -/
def failOracle : SenseOracle := { success := false, pos := fun _ => 7 }

/-- A concrete state with one stepper whose commanded position is 5. -/
def stW : BLTState := initState [{ commanded_position := 5, mcu_position := 0 }]

/-- A concrete mid homing state whose only snapshotted stepper has not
moved: counter 5 both in the snapshot and now. -/
def stUnmoved : BLTState :=
  { next_cmd_time := 0
    next_test_time := 0
    last_move_time := 0
    steppers := [{ commanded_position := 0, mcu_position := 5 }]
    start_mcu_pos := [5]
    events := [] }

/-- A concrete mid homing state with two snapshotted steppers, the
first unmoved (counter 5 = snapshot 5) and the second moved (counter 7,
snapshot 6). -/
def stHalfMoved : BLTState :=
  { next_cmd_time := 0
    next_test_time := 0
    last_move_time := 0
    steppers := [{ commanded_position := 0, mcu_position := 5 },
      { commanded_position := 0, mcu_position := 7 }]
    start_mcu_pos := [5, 6]
    events := [] }

lemma MIN_CMD_TIME_pos : 0 < MIN_CMD_TIME := by
  norm_num [MIN_CMD_TIME, SIGNAL_PERIOD]

lemma TEST_TIME_nonneg : (0 : ℚ) ≤ TEST_TIME := by norm_num [TEST_TIME]

lemma freq_pos {f : ℕ} (hf : 20 ≤ f) : (0 : ℚ) < (f : ℚ) := by
  have : (20 : ℚ) ≤ (f : ℚ) := by exact_mod_cast hf
  linarith

lemma two_le_dur_floor {f : ℕ} (hf : 20 ≤ f) (d : ℚ) :
    (2 : ℚ) ≤ (⌊max d MIN_CMD_TIME * f⌋ : ℚ) := by
  have h20 : (20 : ℚ) ≤ (f : ℚ) := by exact_mod_cast hf
  have hmin : MIN_CMD_TIME ≤ max d MIN_CMD_TIME := le_max_right _ _
  have hmin0 : (0 : ℚ) ≤ MIN_CMD_TIME := le_of_lt MIN_CMD_TIME_pos
  have h2 : (2 : ℚ) ≤ max d MIN_CMD_TIME * f := by
    calc (2 : ℚ) ≤ MIN_CMD_TIME * 20 := by norm_num [MIN_CMD_TIME, SIGNAL_PERIOD]
    _ ≤ max d MIN_CMD_TIME * f :=
        mul_le_mul hmin h20 (by norm_num) (le_trans hmin0 hmin)
  exact_mod_cast Int.le_floor.mpr h2

/-- With any realistic clock frequency the tick round trip moves the
cursor strictly forward. -/
lemma sendCmdTime_lt {f : ℕ} (hf : 20 ≤ f) (t d : ℚ) :
    t < sendCmdTime f t d := by
  have hf0 : (0 : ℚ) < (f : ℚ) := freq_pos hf
  unfold sendCmdTime clock_to_print_time print_time_to_clock seconds_to_clock
  rw [lt_div_iff hf0]
  push_cast
  have h1 : t * f - 1 < (⌊t * f⌋ : ℚ) := Int.sub_one_lt_floor _
  have h2 : (2 : ℚ) ≤ (⌊max d MIN_CMD_TIME * f⌋ : ℚ) := two_le_dur_floor hf d
  linarith

lemma sendCmdTime_le {f : ℕ} (hf : 20 ≤ f) (t d : ℚ) :
    t ≤ sendCmdTime f t d :=
  le_of_lt (sendCmdTime_lt hf t d)

/-- The tick round trip always lands on a whole tick. -/
lemma sendCmdTime_tick (f : ℕ) (t d : ℚ) :
    ∃ k : ℤ, sendCmdTime f t d = (k : ℚ) / f :=
  ⟨print_time_to_clock f t + seconds_to_clock f (max d MIN_CMD_TIME), rfl⟩

/-- From a tick aligned cursor the round trip loses less than one tick
of the requested duration. -/
lemma sendCmdTime_ge_of_tick {f : ℕ} (hf : 0 < f) (k : ℤ) (d : ℚ) :
    (k : ℚ) / f + max d MIN_CMD_TIME - 1 / f ≤ sendCmdTime f ((k : ℚ) / f) d := by
  have hf0 : (0 : ℚ) < (f : ℚ) := by exact_mod_cast hf
  have hne : (f : ℚ) ≠ 0 := ne_of_gt hf0
  unfold sendCmdTime clock_to_print_time print_time_to_clock seconds_to_clock
  have h1 : ((k : ℚ) / f) * f = (k : ℚ) := div_mul_cancel₀ _ hne
  rw [h1, Int.floor_intCast, le_div_iff hf0]
  push_cast
  have h2 : max d MIN_CMD_TIME * f - 1 < (⌊max d MIN_CMD_TIME * f⌋ : ℚ) :=
    Int.sub_one_lt_floor _
  have h3 : ((k : ℚ) / f + max d MIN_CMD_TIME - 1 / f) * f
      = (k : ℚ) + max d MIN_CMD_TIME * f - 1 := by
    field_simp
  rw [h3]
  linarith

lemma send_cmd_fst_next_cmd_time (cfg : BLTConfig) (c : BLTCmd) (d : ℚ) (s : BLTState) :
    (send_cmd cfg c d s).1.next_cmd_time = sendCmdTime cfg.freq s.next_cmd_time d := rfl

lemma send_cmd_snd (cfg : BLTConfig) (c : BLTCmd) (d : ℚ) (s : BLTState) :
    (send_cmd cfg c d s).2 = sendCmdTime cfg.freq s.next_cmd_time d := rfl

lemma send_cmd_next_test_time (cfg : BLTConfig) (c : BLTCmd) (d : ℚ) (s : BLTState) :
    (send_cmd cfg c d s).1.next_test_time = s.next_test_time := rfl

lemma send_cmd_last_move_time (cfg : BLTConfig) (c : BLTCmd) (d : ℚ) (s : BLTState) :
    (send_cmd cfg c d s).1.last_move_time = s.last_move_time := rfl

lemma send_cmd_steppers (cfg : BLTConfig) (c : BLTCmd) (d : ℚ) (s : BLTState) :
    (send_cmd cfg c d s).1.steppers = s.steppers := rfl

lemma send_cmd_start_mcu_pos (cfg : BLTConfig) (c : BLTCmd) (d : ℚ) (s : BLTState) :
    (send_cmd cfg c d s).1.start_mcu_pos = s.start_mcu_pos := rfl

lemma send_cmd_events (cfg : BLTConfig) (c : BLTCmd) (d : ℚ) (s : BLTState) :
    (send_cmd cfg c d s).1.events
      = s.events ++ [Event.setPwm s.next_cmd_time (Commands c / SIGNAL_PERIOD)] := rfl

lemma sync_mcu_next_cmd_time (est : ℚ) (s : BLTState) :
    (sync_mcu_print_time est s).next_cmd_time
      = max s.next_cmd_time (est + MIN_CMD_TIME) := rfl

lemma sync_mcu_next_test_time (est : ℚ) (s : BLTState) :
    (sync_mcu_print_time est s).next_test_time = s.next_test_time := rfl

lemma sync_mcu_last_move_time (est : ℚ) (s : BLTState) :
    (sync_mcu_print_time est s).last_move_time = s.last_move_time := rfl

lemma sync_mcu_steppers (est : ℚ) (s : BLTState) :
    (sync_mcu_print_time est s).steppers = s.steppers := rfl

lemma sync_mcu_start_mcu_pos (est : ℚ) (s : BLTState) :
    (sync_mcu_print_time est s).start_mcu_pos = s.start_mcu_pos := rfl

lemma sync_mcu_events (est : ℚ) (s : BLTState) :
    (sync_mcu_print_time est s).events = s.events ++ [Event.estPrintTime] := rfl

lemma sync_print_time_next_test_time (s : BLTState) :
    (sync_print_time s).next_test_time = s.next_test_time := by
  unfold sync_print_time; split <;> rfl

lemma sync_print_time_steppers (s : BLTState) :
    (sync_print_time s).steppers = s.steppers := by
  unfold sync_print_time; split <;> rfl

lemma sync_print_time_start_mcu_pos (s : BLTState) :
    (sync_print_time s).start_mcu_pos = s.start_mcu_pos := by
  unfold sync_print_time; split <;> rfl

lemma sync_print_time_nc_eq_lmt (s : BLTState) :
    (sync_print_time s).next_cmd_time = (sync_print_time s).last_move_time := by
  unfold sync_print_time; split
  · simp
  · rfl

lemma le_sync_print_time_nc (s : BLTState) :
    s.next_cmd_time ≤ (sync_print_time s).next_cmd_time := by
  unfold sync_print_time; split
  · exact le_refl _
  · exact le_of_not_lt (by assumption)

lemma le_sync_print_time_lmt (s : BLTState) :
    s.last_move_time ≤ (sync_print_time s).last_move_time := by
  unfold sync_print_time; split
  case isTrue h => simp; linarith
  case isFalse h => exact le_refl _

lemma lmt_le_sync_print_time_nc (s : BLTState) :
    s.last_move_time ≤ (sync_print_time s).next_cmd_time := by
  unfold sync_print_time; split
  case isTrue h => exact le_of_lt h
  case isFalse h => exact le_refl _

lemma sync_print_time_events (s : BLTState) :
    (sync_print_time s).events = s.events ++
      (if s.last_move_time < s.next_cmd_time
        then [Event.dwell (s.next_cmd_time - s.last_move_time)] else []) := by
  unfold sync_print_time; split
  · simp_all
  · simp_all

lemma applySense_length (o : SenseOracle) (l : List Stepper) :
    (applySense o l).length = l.length := by
  simp [applySense, List.enum_length]

lemma applySense_map_mcu (o : SenseOracle) (l : List Stepper) :
    (applySense o l).map (fun st => st.mcu_position)
      = l.map (fun st => st.mcu_position) := by
  unfold applySense
  rw [List.map_map]
  have h : ((fun st => st.mcu_position) ∘
      fun p : ℕ × Stepper => { p.2 with commanded_position := o.pos p.1 })
      = (fun st => st.mcu_position) ∘ Prod.snd := rfl
  rw [h, ← List.map_map, List.enum_map_snd]

lemma restorePositions_length (l : List Stepper) (prev : List ℚ) :
    (restorePositions l prev).length = min l.length prev.length := by
  simp [restorePositions]

lemma restorePositions_map_mcu (l : List Stepper) (prev : List ℚ)
    (h : l.length ≤ prev.length) :
    (restorePositions l prev).map (fun st => st.mcu_position)
      = l.map (fun st => st.mcu_position) := by
  induction l generalizing prev with
  | nil => simp [restorePositions]
  | cons a l ih =>
      cases prev with
      | nil => simp at h
      | cons q prev =>
          simp only [restorePositions, List.zip_cons_cons, List.map_cons] at *
          exact congrArg _ (ih prev (Nat.le_of_succ_le_succ h))

lemma restorePositions_map_cp (l : List Stepper) (prev : List ℚ)
    (h : prev.length ≤ l.length) :
    (restorePositions l prev).map (fun st => st.commanded_position) = prev := by
  induction prev generalizing l with
  | nil => simp [restorePositions]
  | cons q prev ih =>
      cases l with
      | nil => simp at h
      | cons a l =>
          simp only [restorePositions, List.zip_cons_cons, List.map_cons] at *
          exact congrArg _ (ih l (Nat.le_of_succ_le_succ h))

lemma verify_state_next_cmd_time (o : SenseOracle) (a b : ℚ) (tr : Bool)
    (m : String) (s : BLTState) :
    (verify_state o a b tr m s).1.next_cmd_time = s.next_cmd_time := by
  by_cases h : o.success <;> simp [verify_state, h]

lemma verify_state_next_test_time (o : SenseOracle) (a b : ℚ) (tr : Bool)
    (m : String) (s : BLTState) :
    (verify_state o a b tr m s).1.next_test_time = s.next_test_time := by
  by_cases h : o.success <;> simp [verify_state, h]

lemma verify_state_last_move_time (o : SenseOracle) (a b : ℚ) (tr : Bool)
    (m : String) (s : BLTState) :
    (verify_state o a b tr m s).1.last_move_time = s.last_move_time := by
  by_cases h : o.success <;> simp [verify_state, h]

lemma verify_state_start_mcu_pos (o : SenseOracle) (a b : ℚ) (tr : Bool)
    (m : String) (s : BLTState) :
    (verify_state o a b tr m s).1.start_mcu_pos = s.start_mcu_pos := by
  by_cases h : o.success <;> simp [verify_state, h]

lemma verify_state_events (o : SenseOracle) (a b : ℚ) (tr : Bool)
    (m : String) (s : BLTState) :
    (verify_state o a b tr m s).1.events = s.events ++
      [Event.armSense a ENDSTOP_SAMPLE_TIME ENDSTOP_SAMPLE_COUNT
        ENDSTOP_REST_TIME tr, Event.waitSense b] := by
  by_cases h : o.success <;> simp [verify_state, h]

lemma verify_state_map_mcu (o : SenseOracle) (a b : ℚ) (tr : Bool)
    (m : String) (s : BLTState) :
    (verify_state o a b tr m s).1.steppers.map (fun st => st.mcu_position)
      = s.steppers.map (fun st => st.mcu_position) := by
  by_cases h : o.success <;> simp only [verify_state, h, if_true, if_false,
    Bool.false_eq_true]
  · rw [restorePositions_map_mcu, applySense_map_mcu]
    rw [applySense_length, List.length_map]
  · exact applySense_map_mcu o s.steppers

lemma verify_state_length (o : SenseOracle) (a b : ℚ) (tr : Bool)
    (m : String) (s : BLTState) :
    (verify_state o a b tr m s).1.steppers.length = s.steppers.length := by
  have h := congrArg List.length (verify_state_map_mcu o a b tr m s)
  simpa using h

lemma verify_state_success (o : SenseOracle) (a b : ℚ) (tr : Bool)
    (m : String) (s : BLTState) (h : o.success = true) :
    (verify_state o a b tr m s).2 = none := by
  simp [verify_state, h]

lemma verify_state_failure (o : SenseOracle) (a b : ℚ) (tr : Bool)
    (m : String) (s : BLTState) (h : o.success = false) :
    (verify_state o a b tr m s).2 = some ("BLTouch failed to " ++ m) := by
  simp [verify_state, h]

lemma raise_probe_next_test_time (cfg : BLTConfig) (o : SenseOracle) (s : BLTState) :
    (raise_probe cfg o s).1.next_test_time = s.next_test_time := by
  unfold raise_probe
  rw [verify_state_next_test_time]
  rfl

lemma raise_probe_last_move_time (cfg : BLTConfig) (o : SenseOracle) (s : BLTState) :
    (raise_probe cfg o s).1.last_move_time = s.last_move_time := by
  unfold raise_probe
  rw [verify_state_last_move_time]
  rfl

lemma raise_probe_start_mcu_pos (cfg : BLTConfig) (o : SenseOracle) (s : BLTState) :
    (raise_probe cfg o s).1.start_mcu_pos = s.start_mcu_pos := by
  unfold raise_probe
  rw [verify_state_start_mcu_pos]
  rfl

lemma raise_probe_map_mcu (cfg : BLTConfig) (o : SenseOracle) (s : BLTState) :
    (raise_probe cfg o s).1.steppers.map (fun st => st.mcu_position)
      = s.steppers.map (fun st => st.mcu_position) := by
  unfold raise_probe
  rw [verify_state_map_mcu]
  rfl

lemma le_raise_probe_nc (cfg : BLTConfig) (o : SenseOracle) (s : BLTState)
    (hf : 20 ≤ cfg.freq) :
    s.next_cmd_time ≤ (raise_probe cfg o s).1.next_cmd_time := by
  unfold raise_probe
  rw [verify_state_next_cmd_time]
  simp only [send_cmd_fst_next_cmd_time]
  exact le_trans (sendCmdTime_le hf _ _) (le_trans (sendCmdTime_le hf _ _)
    (sendCmdTime_le hf _ _))

lemma raise_probe_snd (cfg : BLTConfig) (o : SenseOracle) (s : BLTState) :
    (raise_probe cfg o s).2
      = if o.success then none else some "BLTouch failed to raise probe" := by
  unfold raise_probe
  by_cases h : o.success
  · rw [verify_state_success _ _ _ _ _ _ h]; simp [h]
  · rw [verify_state_failure _ _ _ _ _ _ (by simp_all)]; simp [h]

/-- raise_probe only logs pwm, arm and wait events. -/
lemma raise_probe_countP (cfg : BLTConfig) (o : SenseOracle) (s : BLTState)
    (p : Event → Bool) (hp1 : ∀ t v, p (Event.setPwm t v) = false)
    (hp2 : ∀ a b c d e, p (Event.armSense a b c d e) = false)
    (hp3 : ∀ t, p (Event.waitSense t) = false) :
    ((raise_probe cfg o s).1.events).countP p = s.events.countP p := by
  unfold raise_probe
  rw [verify_state_events]
  simp only [send_cmd_events]
  simp [List.countP_append, List.countP_cons, hp1, hp2, hp3]

lemma sync_print_time_countP (s : BLTState) (p : Event → Bool)
    (hp : ∀ d, p (Event.dwell d) = false) :
    ((sync_print_time s).events).countP p = s.events.countP p := by
  rw [sync_print_time_events, List.countP_append]
  split <;> simp [List.countP_cons, hp]

lemma send_cmd_countP (cfg : BLTConfig) (c : BLTCmd) (d : ℚ) (s : BLTState)
    (p : Event → Bool) (hp : ∀ t v, p (Event.setPwm t v) = false) :
    (((send_cmd cfg c d s).1).events).countP p = s.events.countP p := by
  rw [send_cmd_events, List.countP_append]
  simp [List.countP_cons, hp]

lemma verify_state_countP (o : SenseOracle) (a b : ℚ) (tr : Bool) (m : String)
    (s : BLTState) (p : Event → Bool)
    (hp2 : ∀ a b c d e, p (Event.armSense a b c d e) = false)
    (hp3 : ∀ t, p (Event.waitSense t) = false) :
    ((verify_state o a b tr m s).1.events).countP p = s.events.countP p := by
  rw [verify_state_events, List.countP_append]
  simp [List.countP_cons, hp2, hp3]

lemma test_sensor_run_of_success (cfg : BLTConfig) (o : SenseOracle)
    (s : BLTState) (h : o.success = true) :
    test_sensor_run cfg o s =
      (sync_print_time
        { (test_verify cfg o s).1 with
            next_test_time := test_check_end cfg s + TEST_TIME }, none) := by
  simp only [test_sensor_run, test_verify, test_check_start, test_check_end,
    verify_state_success _ _ _ _ _ _ h]

lemma test_sensor_run_of_failure (cfg : BLTConfig) (o : SenseOracle)
    (s : BLTState) (h : o.success = false) :
    test_sensor_run cfg o s =
      ((test_verify cfg o s).1,
        some ("BLTouch failed to " ++ "verify sensor state")) := by
  simp only [test_sensor_run, test_verify, test_check_start, test_check_end,
    verify_state_failure _ _ _ _ _ _ h]

lemma lmt_lt_test_check_end (cfg : BLTConfig) (s : BLTState)
    (hf : 20 ≤ cfg.freq) :
    s.last_move_time < test_check_end cfg s := by
  unfold test_check_end
  rw [send_cmd_snd, send_cmd_fst_next_cmd_time]
  calc s.last_move_time ≤ (sync_print_time s).next_cmd_time :=
        lmt_le_sync_print_time_nc s
  _ < sendCmdTime cfg.freq (sync_print_time s).next_cmd_time (pin_move_time cfg) :=
        sendCmdTime_lt hf _ _
  _ ≤ _ := sendCmdTime_le hf _ _

lemma test_check_end_le_verify_nc (cfg : BLTConfig) (o : SenseOracle)
    (s : BLTState) (hf : 20 ≤ cfg.freq) :
    test_check_end cfg s ≤ (test_verify cfg o s).1.next_cmd_time := by
  unfold test_verify test_check_end
  rw [verify_state_next_cmd_time]
  simp only [send_cmd_fst_next_cmd_time, send_cmd_snd]
  exact sendCmdTime_le hf _ _

lemma nc_le_test_verify_nc (cfg : BLTConfig) (o : SenseOracle) (s : BLTState)
    (hf : 20 ≤ cfg.freq) :
    s.next_cmd_time ≤ (test_verify cfg o s).1.next_cmd_time := by
  unfold test_verify
  rw [verify_state_next_cmd_time]
  simp only [send_cmd_fst_next_cmd_time]
  exact le_trans (le_sync_print_time_nc s)
    (le_trans (sendCmdTime_le hf _ _)
      (le_trans (sendCmdTime_le hf _ _) (sendCmdTime_le hf _ _)))

lemma test_verify_lmt (cfg : BLTConfig) (o : SenseOracle) (s : BLTState) :
    (test_verify cfg o s).1.last_move_time = (sync_print_time s).last_move_time := by
  unfold test_verify
  rw [verify_state_last_move_time]
  rfl

lemma test_verify_nt (cfg : BLTConfig) (o : SenseOracle) (s : BLTState) :
    (test_verify cfg o s).1.next_test_time = s.next_test_time := by
  unfold test_verify
  rw [verify_state_next_test_time]
  rw [send_cmd_next_test_time, send_cmd_next_test_time, send_cmd_next_test_time,
    sync_print_time_next_test_time]

/-- The sensor test slow path always issues exactly three pwm commands
before its verification outcome is known: they are on the event log of
the verification call itself. -/
lemma test_verify_countP_pwm (cfg : BLTConfig) (o : SenseOracle) (s : BLTState) :
    ((test_verify cfg o s).1.events).countP Event.isPwm
      = s.events.countP Event.isPwm + 3 := by
  unfold test_verify
  rw [verify_state_events]
  simp only [send_cmd_events, sync_print_time_events]
  by_cases hc : s.last_move_time < s.next_cmd_time <;>
    simp [hc, List.countP_append, List.countP_cons, Event.isPwm]

/-- Whatever the verification outcome, a run of the sensor test issues
exactly three pwm commands. -/
lemma test_sensor_run_countP_pwm (cfg : BLTConfig) (o : SenseOracle)
    (s : BLTState) :
    ((test_sensor_run cfg o s).1.events).countP Event.isPwm
      = s.events.countP Event.isPwm + 3 := by
  by_cases ho : o.success
  · rw [test_sensor_run_of_success cfg o s ho]
    show ((sync_print_time _).events).countP Event.isPwm = _
    rw [sync_print_time_countP _ _ (fun _ => rfl)]
    exact test_verify_countP_pwm cfg o s
  · rw [test_sensor_run_of_failure cfg o s (by simp_all)]
    exact test_verify_countP_pwm cfg o s

lemma test_sensor_guard (cfg : BLTConfig) (o : SenseOracle) (s : BLTState)
    (h : cfg.triggered_on_pin_up_touch_mode = false ∨ cfg.triggered_on_pin_up = true) :
    test_sensor cfg o s = (s, none) := by
  unfold test_sensor
  rcases h with h | h <;> simp [h]

lemma test_sensor_skip (cfg : BLTConfig) (o : SenseOracle) (s : BLTState)
    (hg1 : cfg.triggered_on_pin_up_touch_mode = true)
    (hg2 : cfg.triggered_on_pin_up = false)
    (hlt : s.last_move_time < s.next_test_time) :
    test_sensor cfg o s
      = ({ s with next_test_time := s.last_move_time + TEST_TIME }, none) := by
  unfold test_sensor
  simp [hg1, hg2, hlt]

lemma test_sensor_of_run (cfg : BLTConfig) (o : SenseOracle) (s : BLTState)
    (hg1 : cfg.triggered_on_pin_up_touch_mode = true)
    (hg2 : cfg.triggered_on_pin_up = false)
    (hge : ¬ s.last_move_time < s.next_test_time) :
    test_sensor cfg o s = test_sensor_run cfg o s := by
  unfold test_sensor
  simp [hg1, hg2, hge]

/-- Monotonicity and invariant preservation of the sensor test slow
path, from a state where the throttle allows the test. -/
lemma test_sensor_run_mono (cfg : BLTConfig) (o : SenseOracle) (s : BLTState)
    (hf : 20 ≤ cfg.freq) (hpre : s.next_test_time ≤ s.last_move_time) :
    s.next_cmd_time ≤ (test_sensor_run cfg o s).1.next_cmd_time ∧
    s.next_test_time ≤ (test_sensor_run cfg o s).1.next_test_time ∧
    s.last_move_time ≤ (test_sensor_run cfg o s).1.last_move_time ∧
    Inv (test_sensor_run cfg o s).1 := by
  by_cases h : o.success
  · rw [test_sensor_run_of_success cfg o s h]
    have hce : s.last_move_time < test_check_end cfg s := lmt_lt_test_check_end cfg s hf
    have hvnc : test_check_end cfg s ≤ (test_verify cfg o s).1.next_cmd_time :=
      test_check_end_le_verify_nc cfg o s hf
    have hnc : s.next_cmd_time ≤ (test_verify cfg o s).1.next_cmd_time :=
      nc_le_test_verify_nc cfg o s hf
    set X : BLTState :=
      { (test_verify cfg o s).1 with
          next_test_time := test_check_end cfg s + TEST_TIME } with hX
    have hXnc : X.next_cmd_time = (test_verify cfg o s).1.next_cmd_time := rfl
    have hXlmt : X.last_move_time = (test_verify cfg o s).1.last_move_time := rfl
    refine ⟨?_, ?_, ?_, ?_⟩
    · exact le_trans (by rw [hXnc]; exact hnc) (le_sync_print_time_nc X)
    · rw [sync_print_time_next_test_time]
      show s.next_test_time ≤ test_check_end cfg s + TEST_TIME
      have := TEST_TIME_nonneg
      linarith
    · refine le_trans ?_ (le_sync_print_time_lmt X)
      rw [hXlmt, test_verify_lmt]
      exact le_sync_print_time_lmt s
    · unfold Inv
      rw [sync_print_time_next_test_time, ← sync_print_time_nc_eq_lmt]
      show test_check_end cfg s + TEST_TIME ≤ (sync_print_time X).next_cmd_time + TEST_TIME
      have h1 : X.next_cmd_time ≤ (sync_print_time X).next_cmd_time :=
        le_sync_print_time_nc X
      rw [hXnc] at h1
      linarith
  · rw [test_sensor_run_of_failure cfg o s (by simp_all)]
    have hnc : s.next_cmd_time ≤ (test_verify cfg o s).1.next_cmd_time :=
      nc_le_test_verify_nc cfg o s hf
    have hlmt : s.last_move_time ≤ (test_verify cfg o s).1.last_move_time := by
      rw [test_verify_lmt]
      exact le_sync_print_time_lmt s
    refine ⟨hnc, ?_, hlmt, ?_⟩
    · rw [test_verify_nt]
    · unfold Inv
      rw [test_verify_nt]
      have := TEST_TIME_nonneg
      linarith

lemma le_send_cmd_nc (cfg : BLTConfig) (c : BLTCmd) (d : ℚ) (s : BLTState)
    (hf : 20 ≤ cfg.freq) :
    s.next_cmd_time ≤ (send_cmd cfg c d s).1.next_cmd_time := by
  rw [send_cmd_fst_next_cmd_time]
  exact sendCmdTime_le hf _ _

lemma test_verify_countP (cfg : BLTConfig) (o : SenseOracle) (s : BLTState)
    (p : Event → Bool) (hp1 : ∀ t v, p (Event.setPwm t v) = false)
    (hp2 : ∀ a b c d e, p (Event.armSense a b c d e) = false)
    (hp3 : ∀ t, p (Event.waitSense t) = false)
    (hp4 : ∀ d, p (Event.dwell d) = false) :
    ((test_verify cfg o s).1.events).countP p = s.events.countP p := by
  unfold test_verify
  rw [verify_state_countP _ _ _ _ _ _ _ hp2 hp3, send_cmd_countP _ _ _ _ _ hp1,
    send_cmd_countP _ _ _ _ _ hp1, send_cmd_countP _ _ _ _ _ hp1,
    sync_print_time_countP _ _ hp4]

lemma test_sensor_countP (cfg : BLTConfig) (o : SenseOracle) (s : BLTState)
    (p : Event → Bool) (hp1 : ∀ t v, p (Event.setPwm t v) = false)
    (hp2 : ∀ a b c d e, p (Event.armSense a b c d e) = false)
    (hp3 : ∀ t, p (Event.waitSense t) = false)
    (hp4 : ∀ d, p (Event.dwell d) = false) :
    ((test_sensor cfg o s).1.events).countP p = s.events.countP p := by
  by_cases hg1 : cfg.triggered_on_pin_up_touch_mode
  · by_cases hg2 : cfg.triggered_on_pin_up
    · rw [test_sensor_guard cfg o s (Or.inr hg2)]
    · by_cases hlt : s.last_move_time < s.next_test_time
      · rw [test_sensor_skip cfg o s hg1 (by simp_all) hlt]
      · rw [test_sensor_of_run cfg o s hg1 (by simp_all) hlt]
        by_cases ho : o.success
        · rw [test_sensor_run_of_success cfg o s ho]
          have h1 := sync_print_time_countP
            { (test_verify cfg o s).1 with
                next_test_time := test_check_end cfg s + TEST_TIME } p hp4
          simp only at h1
          rw [h1]
          exact test_verify_countP cfg o s p hp1 hp2 hp3 hp4
        · rw [test_sensor_run_of_failure cfg o s (by simp_all)]
          exact test_verify_countP cfg o s p hp1 hp2 hp3 hp4
  · rw [test_sensor_guard cfg o s (Or.inl (by simp_all))]

/-- Monotonicity and invariant preservation of test_sensor. -/
lemma test_sensor_mono (cfg : BLTConfig) (o : SenseOracle) (s : BLTState)
    (hf : 20 ≤ cfg.freq) (hs : Inv s) :
    s.next_cmd_time ≤ (test_sensor cfg o s).1.next_cmd_time ∧
    s.next_test_time ≤ (test_sensor cfg o s).1.next_test_time ∧
    s.last_move_time ≤ (test_sensor cfg o s).1.last_move_time ∧
    Inv (test_sensor cfg o s).1 := by
  by_cases hg1 : cfg.triggered_on_pin_up_touch_mode
  · by_cases hg2 : cfg.triggered_on_pin_up
    · rw [test_sensor_guard cfg o s (Or.inr hg2)]
      exact ⟨le_refl _, le_refl _, le_refl _, hs⟩
    · by_cases hlt : s.last_move_time < s.next_test_time
      · rw [test_sensor_skip cfg o s hg1 (by simp_all) hlt]
        refine ⟨le_refl _, ?_, le_refl _, ?_⟩
        · exact hs
        · unfold Inv at *
          exact le_refl _
      · rw [test_sensor_of_run cfg o s hg1 (by simp_all) hlt]
        exact test_sensor_run_mono cfg o s hf (le_of_not_lt hlt)
  · rw [test_sensor_guard cfg o s (Or.inl (by simp_all))]
    exact ⟨le_refl _, le_refl _, le_refl _, hs⟩

lemma prepTail_next_test_time (cfg : BLTConfig) (s1 : BLTState) :
    (prepTail cfg s1).next_test_time = s1.next_test_time := by
  show (sync_print_time (send_cmd cfg .noCmd MIN_CMD_TIME
    (send_cmd cfg .pin_down (pin_move_time cfg - MIN_CMD_TIME)
      (sync_print_time s1)).1).1).next_test_time = s1.next_test_time
  rw [sync_print_time_next_test_time, send_cmd_next_test_time,
    send_cmd_next_test_time, sync_print_time_next_test_time]

lemma le_prepTail_nc (cfg : BLTConfig) (s1 : BLTState) (hf : 20 ≤ cfg.freq) :
    s1.next_cmd_time ≤ (prepTail cfg s1).next_cmd_time := by
  show s1.next_cmd_time ≤ (sync_print_time (send_cmd cfg .noCmd MIN_CMD_TIME
    (send_cmd cfg .pin_down (pin_move_time cfg - MIN_CMD_TIME)
      (sync_print_time s1)).1).1).next_cmd_time
  exact le_trans (le_sync_print_time_nc s1)
    (le_trans (le_send_cmd_nc _ _ _ _ hf)
      (le_trans (le_send_cmd_nc _ _ _ _ hf) (le_sync_print_time_nc _)))

lemma le_prepTail_lmt (cfg : BLTConfig) (s1 : BLTState) :
    s1.last_move_time ≤ (prepTail cfg s1).last_move_time := by
  show s1.last_move_time ≤ (sync_print_time (send_cmd cfg .noCmd MIN_CMD_TIME
    (send_cmd cfg .pin_down (pin_move_time cfg - MIN_CMD_TIME)
      (sync_print_time s1)).1).1).last_move_time
  refine le_trans (le_sync_print_time_lmt s1) (le_trans ?_ (le_sync_print_time_lmt _))
  rw [send_cmd_last_move_time, send_cmd_last_move_time]

lemma prepTail_Inv (cfg : BLTConfig) (s1 : BLTState) (hs : Inv s1) :
    Inv (prepTail cfg s1) := by
  unfold Inv at *
  rw [prepTail_next_test_time]
  have := le_prepTail_lmt cfg s1
  linarith

lemma prepTail_countP (cfg : BLTConfig) (s1 : BLTState)
    (p : Event → Bool) (hp1 : ∀ t v, p (Event.setPwm t v) = false)
    (hp4 : ∀ d, p (Event.dwell d) = false)
    (hp5 : p Event.sensePrepare = false) :
    ((prepTail cfg s1).events).countP p = s1.events.countP p := by
  show ((sync_print_time (send_cmd cfg .noCmd MIN_CMD_TIME
    (send_cmd cfg .pin_down (pin_move_time cfg - MIN_CMD_TIME)
      (sync_print_time s1)).1).1).events ++ [Event.sensePrepare]).countP p
    = s1.events.countP p
  rw [List.countP_append, sync_print_time_countP _ _ hp4,
    send_cmd_countP _ _ _ _ _ hp1, send_cmd_countP _ _ _ _ _ hp1,
    sync_print_time_countP _ _ hp4]
  simp [List.countP_cons, hp5]

lemma home_prepare_of_error (cfg : BLTConfig) (o : SenseOracle) (s : BLTState)
    (e : String) (he : (test_sensor cfg o s).2 = some e) :
    home_prepare cfg o s = ((test_sensor cfg o s).1, some e) := by
  simp only [home_prepare, he]

lemma home_prepare_of_ok (cfg : BLTConfig) (o : SenseOracle) (s : BLTState)
    (he : (test_sensor cfg o s).2 = none) :
    home_prepare cfg o s = (prepTail cfg (test_sensor cfg o s).1, none) := by
  simp only [home_prepare, he]

lemma home_prepare_mono (cfg : BLTConfig) (o : SenseOracle) (s : BLTState)
    (hf : 20 ≤ cfg.freq) (hs : Inv s) :
    s.next_cmd_time ≤ (home_prepare cfg o s).1.next_cmd_time ∧
    s.next_test_time ≤ (home_prepare cfg o s).1.next_test_time ∧
    s.last_move_time ≤ (home_prepare cfg o s).1.last_move_time ∧
    Inv (home_prepare cfg o s).1 := by
  obtain ⟨h1, h2, h3, h4⟩ := test_sensor_mono cfg o s hf hs
  rcases he : (test_sensor cfg o s).2 with _ | e
  · rw [home_prepare_of_ok cfg o s he]
    refine ⟨le_trans h1 (le_prepTail_nc cfg _ hf), ?_,
      le_trans h3 (le_prepTail_lmt cfg _), prepTail_Inv cfg _ h4⟩
    rw [prepTail_next_test_time]
    exact h2
  · rw [home_prepare_of_error cfg o s e he]
    exact ⟨h1, h2, h3, h4⟩

lemma home_prepare_countP (cfg : BLTConfig) (o : SenseOracle) (s : BLTState)
    (p : Event → Bool) (hp1 : ∀ t v, p (Event.setPwm t v) = false)
    (hp2 : ∀ a b c d e, p (Event.armSense a b c d e) = false)
    (hp3 : ∀ t, p (Event.waitSense t) = false)
    (hp4 : ∀ d, p (Event.dwell d) = false)
    (hp5 : p Event.sensePrepare = false) :
    ((home_prepare cfg o s).1.events).countP p = s.events.countP p := by
  rcases he : (test_sensor cfg o s).2 with _ | e
  · rw [home_prepare_of_ok cfg o s he]
    show ((prepTail cfg (test_sensor cfg o s).1).events).countP p = _
    rw [prepTail_countP _ _ _ hp1 hp4 hp5]
    exact test_sensor_countP cfg o s p hp1 hp2 hp3 hp4
  · rw [home_prepare_of_error cfg o s e he]
    exact test_sensor_countP cfg o s p hp1 hp2 hp3 hp4

lemma deployFailed_congr (snap : List ℤ) (l₁ l₂ : List Stepper)
    (h : l₁.map (fun st => st.mcu_position) = l₂.map (fun st => st.mcu_position)) :
    deployFailed snap l₁ = deployFailed snap l₂ := by
  induction snap generalizing l₁ l₂ with
  | nil => simp [deployFailed]
  | cons a snap ih =>
      cases l₁ with
      | nil =>
          cases l₂ with
          | nil => rfl
          | cons y l₂ => simp at h
      | cons x l₁ =>
          cases l₂ with
          | nil => simp at h
          | cons y l₂ =>
              simp only [List.map_cons, List.cons.injEq] at h
              simp only [deployFailed, List.zip_cons_cons, List.any_cons]
              rw [h.1]
              have hih := ih l₁ l₂ h.2
              simp only [deployFailed] at hih
              rw [hih]

lemma deployFailed_iff (snap : List ℤ) (l : List Stepper) :
    deployFailed snap l = true ↔
      ∃ q ∈ snap.zip l, q.2.mcu_position = q.1 := by
  simp [deployFailed, List.any_eq_true]

lemma finalizeTail_of_deploy (s2 : BLTState)
    (hd : deployFailed s2.start_mcu_pos s2.steppers = true) :
    finalizeTail s2 = (sync_print_time s2, some "BLTouch failed to deploy") := by
  simp only [finalizeTail, sync_print_time_start_mcu_pos, sync_print_time_steppers, hd]
  rfl

lemma finalizeTail_of_moved (s2 : BLTState)
    (hd : deployFailed s2.start_mcu_pos s2.steppers = false) :
    finalizeTail s2 =
      ({ sync_print_time s2 with
          events := (sync_print_time s2).events ++ [Event.senseFinalize] }, none) := by
  simp only [finalizeTail, sync_print_time_start_mcu_pos, sync_print_time_steppers, hd]
  rfl

lemma finalizeTail_mono (s2 : BLTState) (hs : Inv s2) :
    s2.next_cmd_time ≤ (finalizeTail s2).1.next_cmd_time ∧
    s2.next_test_time ≤ (finalizeTail s2).1.next_test_time ∧
    s2.last_move_time ≤ (finalizeTail s2).1.last_move_time ∧
    Inv (finalizeTail s2).1 := by
  have hnc := le_sync_print_time_nc s2
  have hlmt := le_sync_print_time_lmt s2
  have hnt := sync_print_time_next_test_time s2
  rcases hd : deployFailed s2.start_mcu_pos s2.steppers with _ | _
  · rw [finalizeTail_of_moved s2 hd]
    refine ⟨hnc, by rw [show ({ sync_print_time s2 with
        events := (sync_print_time s2).events ++ [Event.senseFinalize] } :
        BLTState).next_test_time = s2.next_test_time from hnt], hlmt, ?_⟩
    unfold Inv at *
    show (sync_print_time s2).next_test_time ≤ (sync_print_time s2).last_move_time + TEST_TIME
    rw [hnt]
    linarith
  · rw [finalizeTail_of_deploy s2 hd]
    refine ⟨hnc, by rw [show (sync_print_time s2).next_test_time
        = s2.next_test_time from hnt], hlmt, ?_⟩
    unfold Inv at *
    rw [hnt]
    linarith

lemma home_finalize_of_success (cfg : BLTConfig) (est : ℚ) (o : SenseOracle)
    (s : BLTState) (hsucc : o.success = true) :
    home_finalize cfg est o s
      = finalizeTail (raise_probe cfg o (sync_mcu_print_time est s)).1 := by
  simp only [home_finalize, raise_probe_snd, hsucc, if_true]

lemma home_finalize_of_failure (cfg : BLTConfig) (est : ℚ) (o : SenseOracle)
    (s : BLTState) (hsucc : o.success = false) :
    home_finalize cfg est o s
      = ((raise_probe cfg o (sync_mcu_print_time est s)).1,
          some "BLTouch failed to raise probe") := by
  simp only [home_finalize, raise_probe_snd, hsucc]
  rfl

lemma home_finalize_start_mcu_transfer (cfg : BLTConfig) (est : ℚ)
    (o : SenseOracle) (s : BLTState) :
    deployFailed (raise_probe cfg o (sync_mcu_print_time est s)).1.start_mcu_pos
        (raise_probe cfg o (sync_mcu_print_time est s)).1.steppers
      = deployFailed s.start_mcu_pos s.steppers := by
  rw [raise_probe_start_mcu_pos, sync_mcu_start_mcu_pos]
  apply deployFailed_congr
  rw [raise_probe_map_mcu, sync_mcu_steppers]

lemma home_finalize_mono (cfg : BLTConfig) (est : ℚ) (o : SenseOracle)
    (s : BLTState) (hf : 20 ≤ cfg.freq) (hs : Inv s) :
    s.next_cmd_time ≤ (home_finalize cfg est o s).1.next_cmd_time ∧
    s.next_test_time ≤ (home_finalize cfg est o s).1.next_test_time ∧
    s.last_move_time ≤ (home_finalize cfg est o s).1.last_move_time ∧
    Inv (home_finalize cfg est o s).1 := by
  set s1 := sync_mcu_print_time est s with hs1
  have h1 : s.next_cmd_time ≤ (raise_probe cfg o s1).1.next_cmd_time := by
    refine le_trans ?_ (le_raise_probe_nc cfg o s1 hf)
    rw [hs1, sync_mcu_next_cmd_time]
    exact le_max_left _ _
  have h2 : (raise_probe cfg o s1).1.next_test_time = s.next_test_time := by
    rw [raise_probe_next_test_time, hs1, sync_mcu_next_test_time]
  have h3 : (raise_probe cfg o s1).1.last_move_time = s.last_move_time := by
    rw [raise_probe_last_move_time, hs1, sync_mcu_last_move_time]
  have h4 : Inv (raise_probe cfg o s1).1 := by
    unfold Inv at *
    rw [h2, h3]
    exact hs
  by_cases ho : o.success
  · rw [home_finalize_of_success cfg est o s ho]
    obtain ⟨g1, g2, g3, g4⟩ := finalizeTail_mono (raise_probe cfg o s1).1 h4
    exact ⟨le_trans h1 g1, by rw [h2] at g2; exact g2, by rw [h3] at g3; exact g3, g4⟩
  · rw [home_finalize_of_failure cfg est o s (by simp_all)]
    exact ⟨h1, le_of_eq h2.symm, le_of_eq h3.symm, h4⟩

lemma home_start_fields (pt st : ℚ) (sc : ℕ) (rt : ℚ) (s : BLTState) :
    (home_start pt st sc rt s).next_cmd_time = s.next_cmd_time ∧
    (home_start pt st sc rt s).next_test_time = s.next_test_time ∧
    (home_start pt st sc rt s).last_move_time = s.last_move_time :=
  ⟨rfl, rfl, rfl⟩

lemma connect_mono (cfg : BLTConfig) (est : ℚ) (o : SenseOracle) (s : BLTState)
    (hf : 20 ≤ cfg.freq) (hs : Inv s) :
    s.next_cmd_time ≤ (printer_state_connect cfg est o s).1.next_cmd_time ∧
    s.next_test_time ≤ (printer_state_connect cfg est o s).1.next_test_time ∧
    s.last_move_time ≤ (printer_state_connect cfg est o s).1.last_move_time ∧
    Inv (printer_state_connect cfg est o s).1 := by
  unfold printer_state_connect
  set s1 := sync_mcu_print_time est s with hs1
  have h2 : (raise_probe cfg o s1).1.next_test_time = s.next_test_time := by
    rw [raise_probe_next_test_time, hs1, sync_mcu_next_test_time]
  have h3 : (raise_probe cfg o s1).1.last_move_time = s.last_move_time := by
    rw [raise_probe_last_move_time, hs1, sync_mcu_last_move_time]
  refine ⟨?_, le_of_eq h2.symm, le_of_eq h3.symm, ?_⟩
  · refine le_trans ?_ (le_raise_probe_nc cfg o s1 hf)
    rw [hs1, sync_mcu_next_cmd_time]
    exact le_max_left _ _
  · unfold Inv at *
    rw [h2, h3]
    exact hs

/-- Every admissible operation moves all three time cursors forward and
preserves the invariant. -/
lemma runOp_mono (cfg : BLTConfig) (op : Op) (s : BLTState)
    (hf : 20 ≤ cfg.freq) (hop : opOK op = true) (hs : Inv s) :
    s.next_cmd_time ≤ ((runOp cfg op s).1).next_cmd_time ∧
    s.next_test_time ≤ ((runOp cfg op s).1).next_test_time ∧
    s.last_move_time ≤ ((runOp cfg op s).1).last_move_time ∧
    Inv ((runOp cfg op s).1) := by
  cases op with
  | advance d =>
      have hd : 0 ≤ d := of_decide_eq_true hop
      refine ⟨le_refl _, le_refl _, by show s.last_move_time ≤ s.last_move_time + d; linarith, ?_⟩
      unfold Inv at *
      show s.next_test_time ≤ s.last_move_time + d + TEST_TIME
      linarith
  | connect est o => exact connect_mono cfg est o s hf hs
  | syncMcu est =>
      refine ⟨?_, le_of_eq (sync_mcu_next_test_time est s).symm,
        le_of_eq (sync_mcu_last_move_time est s).symm, ?_⟩
      · rw [show ((runOp cfg (Op.syncMcu est) s).1).next_cmd_time
          = max s.next_cmd_time (est + MIN_CMD_TIME) from rfl]
        exact le_max_left _ _
      · unfold Inv at *
        rw [show ((runOp cfg (Op.syncMcu est) s).1).next_test_time
            = s.next_test_time from rfl,
          show ((runOp cfg (Op.syncMcu est) s).1).last_move_time
            = s.last_move_time from rfl]
        exact hs
  | syncPrint =>
      refine ⟨le_sync_print_time_nc s, le_of_eq (sync_print_time_next_test_time s).symm,
        le_sync_print_time_lmt s, ?_⟩
      unfold Inv at *
      show (sync_print_time s).next_test_time ≤ (sync_print_time s).last_move_time + TEST_TIME
      rw [sync_print_time_next_test_time]
      have := le_sync_print_time_lmt s
      linarith
  | cmd c d =>
      refine ⟨le_send_cmd_nc cfg c d s hf,
        le_of_eq (send_cmd_next_test_time cfg c d s).symm,
        le_of_eq (send_cmd_last_move_time cfg c d s).symm, ?_⟩
      unfold Inv at *
      show (send_cmd cfg c d s).1.next_test_time
        ≤ (send_cmd cfg c d s).1.last_move_time + TEST_TIME
      rw [send_cmd_next_test_time, send_cmd_last_move_time]
      exact hs
  | selfTest o => exact test_sensor_mono cfg o s hf hs
  | prepare o => exact home_prepare_mono cfg o s hf hs
  | finalize est o => exact home_finalize_mono cfg est o s hf hs
  | armEndstop pt st sc rt =>
      refine ⟨le_refl _, le_refl _, le_refl _, hs⟩

lemma execList_append (cfg : BLTConfig) (a b : List Op) (s : BLTState) :
    execList cfg (a ++ b) s = execList cfg b (execList cfg a s) := by
  induction a generalizing s with
  | nil => rfl
  | cons op a ih => simp only [List.cons_append, execList]; exact ih _

/-- Monotonicity along a whole run. -/
lemma execList_mono (cfg : BLTConfig) (ops : List Op) (s : BLTState)
    (hf : 20 ≤ cfg.freq) (hops : ops.all opOK = true) (hs : Inv s) :
    s.next_cmd_time ≤ (execList cfg ops s).next_cmd_time ∧
    s.next_test_time ≤ (execList cfg ops s).next_test_time ∧
    s.last_move_time ≤ (execList cfg ops s).last_move_time ∧
    Inv (execList cfg ops s) := by
  induction ops generalizing s with
  | nil => exact ⟨le_refl _, le_refl _, le_refl _, hs⟩
  | cons op ops ih =>
      simp only [List.all_cons, Bool.and_eq_true] at hops
      obtain ⟨h1, h2, h3, h4⟩ := runOp_mono cfg op s hf hops.1 hs
      obtain ⟨g1, g2, g3, g4⟩ := ih ((runOp cfg op s).1) hops.2 h4
      exact ⟨le_trans h1 g1, le_trans h2 g2, le_trans h3 g3, g4⟩

lemma raise_after_sync_countP_est (cfg : BLTConfig) (est : ℚ) (o : SenseOracle)
    (s : BLTState) :
    (((raise_probe cfg o (sync_mcu_print_time est s)).1).events).countP Event.isEst
      = s.events.countP Event.isEst + 1 := by
  rw [raise_probe_countP _ _ _ _ (fun _ _ => rfl) (fun _ _ _ _ _ => rfl)
    (fun _ => rfl), sync_mcu_events, List.countP_append]
  simp [List.countP_cons, Event.isEst]

lemma raise_after_sync_countP_hook (cfg : BLTConfig) (est : ℚ) (o : SenseOracle)
    (s : BLTState) :
    (((raise_probe cfg o (sync_mcu_print_time est s)).1).events).countP
        Event.isFinalizeHook
      = s.events.countP Event.isFinalizeHook := by
  rw [raise_probe_countP _ _ _ _ (fun _ _ => rfl) (fun _ _ _ _ _ => rfl)
    (fun _ => rfl), sync_mcu_events, List.countP_append]
  simp [List.countP_cons, Event.isFinalizeHook]

/-- home_finalize performs the realtime estimated print time query
exactly once, on every call. -/
lemma home_finalize_countP_est (cfg : BLTConfig) (est : ℚ) (o : SenseOracle)
    (s : BLTState) :
    eventCount Event.isEst (home_finalize cfg est o s).1
      = eventCount Event.isEst s + 1 := by
  unfold eventCount
  by_cases ho : o.success
  · rw [home_finalize_of_success cfg est o s ho]
    set r1 := (raise_probe cfg o (sync_mcu_print_time est s)).1 with hr
    rcases hd : deployFailed r1.start_mcu_pos r1.steppers with _ | _
    · rw [finalizeTail_of_moved r1 hd]
      show ((sync_print_time r1).events ++ [Event.senseFinalize]).countP Event.isEst = _
      rw [List.countP_append, sync_print_time_countP _ _ (fun _ => rfl), hr,
        raise_after_sync_countP_est]
      simp [List.countP_cons, Event.isEst]
    · rw [finalizeTail_of_deploy r1 hd]
      show ((sync_print_time r1).events).countP Event.isEst = _
      rw [sync_print_time_countP _ _ (fun _ => rfl), hr, raise_after_sync_countP_est]
  · rw [home_finalize_of_failure cfg est o s (by simp_all)]
    exact raise_after_sync_countP_est cfg est o s

lemma connect_countP_est (cfg : BLTConfig) (est : ℚ) (o : SenseOracle)
    (s : BLTState) :
    eventCount Event.isEst (printer_state_connect cfg est o s).1
      = eventCount Event.isEst s + 1 := by
  unfold printer_state_connect eventCount
  exact raise_after_sync_countP_est cfg est o s

/-- Claim C5: for every configured pin_move_time value, the computed
pin_move_time is an exact integer multiple of the signal period, is at
least max of the configured value and MIN_CMD_TIME (hence at least
MIN_CMD_TIME), and is the smallest such multiple. -/
theorem pin_move_time_spec (cfg : BLTConfig) :
    (∃ n : ℤ, pin_move_time cfg = (n : ℚ) * SIGNAL_PERIOD) ∧
    max cfg.pin_move_time_config MIN_CMD_TIME ≤ pin_move_time cfg ∧
    (∀ m : ℤ, max cfg.pin_move_time_config MIN_CMD_TIME ≤ (m : ℚ) * SIGNAL_PERIOD →
      pin_move_time cfg ≤ (m : ℚ) * SIGNAL_PERIOD) ∧
    MIN_CMD_TIME ≤ pin_move_time cfg := by
  have hP : (0 : ℚ) < SIGNAL_PERIOD := by norm_num [SIGNAL_PERIOD]
  set x := max cfg.pin_move_time_config MIN_CMD_TIME with hx
  have h1 : x ≤ pin_move_time cfg := by
    unfold pin_move_time
    rw [← hx]
    have hc := Int.le_ceil (x / SIGNAL_PERIOD)
    calc x = x / SIGNAL_PERIOD * SIGNAL_PERIOD := by field_simp
    _ ≤ (⌈x / SIGNAL_PERIOD⌉ : ℚ) * SIGNAL_PERIOD :=
        mul_le_mul_of_nonneg_right hc (le_of_lt hP)
  refine ⟨⟨⌈x / SIGNAL_PERIOD⌉, by unfold pin_move_time; rw [← hx]⟩, h1, ?_,
    le_trans (le_max_right _ _) h1⟩
  intro m hm
  unfold pin_move_time
  rw [← hx]
  have hceil : ⌈x / SIGNAL_PERIOD⌉ ≤ m := by
    rw [Int.ceil_le, div_le_iff hP]
    exact hm
  exact mul_le_mul_of_nonneg_right (by exact_mod_cast hceil) (le_of_lt hP)

/-- Claim C9: home_start passes print_time, sample_time and
sample_count through unchanged to the endstop arm call, and clamps
rest_time to the fixed constant ENDSTOP_REST_TIME, which is 1 ms. -/
theorem home_start_clamp (pt st : ℚ) (sc : ℕ) (rt : ℚ) (s : BLTState) :
    home_start pt st sc rt s
      = { s with events := s.events ++
          [Event.armSense pt st sc (min rt ENDSTOP_REST_TIME) true] } ∧
    ENDSTOP_REST_TIME = 1 / 1000 :=
  ⟨rfl, rfl⟩

/-- Claim C6: when stow in touch mode is not expected to trigger, or
plain stow already is, test_sensor is a no op: the state is returned
unchanged (so no pwm command, no channel call, no cursor change) and no
error is raised, whatever the elapsed time. -/
theorem test_sensor_noop (cfg : BLTConfig) (o : SenseOracle) (s : BLTState)
    (h : cfg.triggered_on_pin_up_touch_mode = false ∨
      cfg.triggered_on_pin_up = true) :
    test_sensor cfg o s = (s, none) :=
  test_sensor_guard cfg o s h

/-- Witness for claim C6 at a concrete configuration and state. -/
theorem test_sensor_noop_witness :
    test_sensor cfgNoTouch okOracle stW = (stW, none) :=
  test_sensor_noop cfgNoTouch okOracle stW (Or.inl rfl)

/-- Claim C4: the value send_cmd returns is the stored new
next_cmd_time; from a tick aligned cursor the tick round trip advances
the cursor by at least max of the duration and MIN_CMD_TIME up to one
clock tick (hence by at least MIN_CMD_TIME up to one tick), and the new
cursor is again tick aligned. -/
theorem send_cmd_tick_advance (cfg : BLTConfig) (c : BLTCmd) (d : ℚ)
    (s : BLTState) (k : ℤ) (hf : 0 < cfg.freq)
    (hk : s.next_cmd_time = (k : ℚ) / cfg.freq) :
    (send_cmd cfg c d s).2 = (send_cmd cfg c d s).1.next_cmd_time ∧
    s.next_cmd_time + max d MIN_CMD_TIME - 1 / cfg.freq ≤ (send_cmd cfg c d s).2 ∧
    s.next_cmd_time + MIN_CMD_TIME - 1 / cfg.freq ≤ (send_cmd cfg c d s).2 ∧
    (∃ k2 : ℤ, (send_cmd cfg c d s).2 = (k2 : ℚ) / cfg.freq) := by
  have hmain : s.next_cmd_time + max d MIN_CMD_TIME - 1 / cfg.freq
      ≤ (send_cmd cfg c d s).2 := by
    rw [send_cmd_snd, hk]
    exact sendCmdTime_ge_of_tick hf k d
  refine ⟨rfl, hmain, ?_, ?_⟩
  · have : MIN_CMD_TIME ≤ max d MIN_CMD_TIME := le_max_right _ _
    linarith
  · rw [send_cmd_snd]
    exact sendCmdTime_tick _ _ _

/-- Witness for claim C4 at a concrete frequency and aligned cursor. -/
theorem send_cmd_tick_advance_witness :
    ((send_cmd cfgW BLTCmd.reset 0 stW).2
      = (send_cmd cfgW BLTCmd.reset 0 stW).1.next_cmd_time) ∧
    (stW.next_cmd_time + max 0 MIN_CMD_TIME - 1 / cfgW.freq
      ≤ (send_cmd cfgW BLTCmd.reset 0 stW).2) ∧
    (stW.next_cmd_time + MIN_CMD_TIME - 1 / cfgW.freq
      ≤ (send_cmd cfgW BLTCmd.reset 0 stW).2) ∧
    (∃ k2 : ℤ, (send_cmd cfgW BLTCmd.reset 0 stW).2 = (k2 : ℚ) / cfgW.freq) :=
  send_cmd_tick_advance cfgW BLTCmd.reset 0 stW 0 (by norm_num [cfgW])
    (by norm_num [stW, initState])

/-- Claim C1 counterexample: a verify call whose sensing wait times out
raises the error and leaves a commanded position different from its
snapshot, so positions are not restored on the failure path. -/
theorem verify_state_restore_cex :
    ((verify_state { success := false, pos := fun _ => 7 } 1 2 true "raise probe"
        (initState [{ commanded_position := 5, mcu_position := 0 }])).2 ≠ none) ∧
    ((verify_state { success := false, pos := fun _ => 7 } 1 2 true "raise probe"
        (initState [{ commanded_position := 5, mcu_position := 0 }])).1.steppers.map
          (fun st => st.commanded_position)
      ≠ (initState [{ commanded_position := 5, mcu_position := 0 }]).steppers.map
          (fun st => st.commanded_position)) := by
  constructor <;> decide

/-- Claim C1 as amended: when the expected state is confirmed in the
window, verify_state returns without error and every commanded position
equals its snapshot; when the wait times out, the EndstopError carrying
the message propagates and the restore loop is skipped, leaving the
commanded positions exactly as the sensing channel left them. -/
theorem verify_state_restore (o : SenseOracle) (a b : ℚ) (tr : Bool)
    (m : String) (s : BLTState) :
    (o.success = true →
      (verify_state o a b tr m s).2 = none ∧
      (verify_state o a b tr m s).1.steppers.map (fun st => st.commanded_position)
        = s.steppers.map (fun st => st.commanded_position)) ∧
    (o.success = false →
      (verify_state o a b tr m s).2 = some ("BLTouch failed to " ++ m) ∧
      (verify_state o a b tr m s).1.steppers = applySense o s.steppers) := by
  constructor
  · intro h
    refine ⟨verify_state_success o a b tr m s h, ?_⟩
    have hst : (verify_state o a b tr m s).1.steppers
        = restorePositions (applySense o s.steppers)
            (s.steppers.map fun st => st.commanded_position) := by
      simp [verify_state, h]
    rw [hst]
    exact restorePositions_map_cp _ _
      (by rw [applySense_length, List.length_map])
  · intro h
    refine ⟨verify_state_failure o a b tr m s h, ?_⟩
    simp [verify_state, h]

/-- Claim C2: when the probe raise verification succeeds and every
snapshotted stepper (of a nonempty snapshot matching the stepper list)
still reads its snapshotted hardware counter, home_finalize raises the
EndstopError with message BLTouch failed to deploy and the endstop
finalize hook is never invoked. -/
theorem home_finalize_all_unchanged (cfg : BLTConfig) (est : ℚ)
    (o : SenseOracle) (s : BLTState) (hsucc : o.success = true)
    (hlen : s.start_mcu_pos.length = s.steppers.length)
    (hne : s.start_mcu_pos ≠ [])
    (hall : ∀ q ∈ s.start_mcu_pos.zip s.steppers, q.2.mcu_position = q.1) :
    (home_finalize cfg est o s).2 = some "BLTouch failed to deploy" ∧
    eventCount Event.isFinalizeHook (home_finalize cfg est o s).1
      = eventCount Event.isFinalizeHook s := by
  have hd : deployFailed s.start_mcu_pos s.steppers = true := by
    rcases hsp : s.start_mcu_pos with _ | ⟨a, tl⟩
    · exact absurd hsp hne
    · rcases hst : s.steppers with _ | ⟨x, xs⟩
      · rw [hsp, hst] at hlen
        simp at hlen
      · rw [deployFailed_iff]
        refine ⟨(a, x), ?_, ?_⟩
        · rw [List.zip_cons_cons]
          exact List.mem_cons_self _ _
        · exact hall (a, x)
            (by rw [hsp, hst, List.zip_cons_cons]; exact List.mem_cons_self _ _)
  have hd1 : deployFailed
      (raise_probe cfg o (sync_mcu_print_time est s)).1.start_mcu_pos
      (raise_probe cfg o (sync_mcu_print_time est s)).1.steppers = true := by
    rw [home_finalize_start_mcu_transfer]
    exact hd
  rw [home_finalize_of_success cfg est o s hsucc, finalizeTail_of_deploy _ hd1]
  refine ⟨rfl, ?_⟩
  unfold eventCount
  show ((sync_print_time
      (raise_probe cfg o (sync_mcu_print_time est s)).1).events).countP
      Event.isFinalizeHook = _
  rw [sync_print_time_countP _ _ (fun _ => rfl), raise_after_sync_countP_hook]

/-- Witness for claim C2: a state whose single snapshotted stepper has
an unchanged counter. -/
theorem home_finalize_all_unchanged_witness :
    (home_finalize cfgW 0 okOracle stUnmoved).2
      = some "BLTouch failed to deploy" ∧
    eventCount Event.isFinalizeHook (home_finalize cfgW 0 okOracle stUnmoved).1
      = eventCount Event.isFinalizeHook stUnmoved :=
  home_finalize_all_unchanged cfgW 0 okOracle stUnmoved rfl rfl (by decide)
    (by decide)

/-- Claim C10: under a successful probe raise verification,
home_finalize raises BLTouch failed to deploy exactly when at least one
snapshotted stepper still reads its snapshotted counter, even when
others moved; when every snapshotted stepper moved it returns no error
and invokes the endstop finalize hook exactly once. -/
theorem home_finalize_deploy_check (cfg : BLTConfig) (est : ℚ)
    (o : SenseOracle) (s : BLTState) (hsucc : o.success = true) :
    ((home_finalize cfg est o s).2 = some "BLTouch failed to deploy" ↔
      ∃ q ∈ s.start_mcu_pos.zip s.steppers, q.2.mcu_position = q.1) ∧
    ((∀ q ∈ s.start_mcu_pos.zip s.steppers, q.2.mcu_position ≠ q.1) →
      (home_finalize cfg est o s).2 = none ∧
      eventCount Event.isFinalizeHook (home_finalize cfg est o s).1
        = eventCount Event.isFinalizeHook s + 1) := by
  rw [home_finalize_of_success cfg est o s hsucc]
  have htrans : deployFailed
      (raise_probe cfg o (sync_mcu_print_time est s)).1.start_mcu_pos
      (raise_probe cfg o (sync_mcu_print_time est s)).1.steppers
      = deployFailed s.start_mcu_pos s.steppers :=
    home_finalize_start_mcu_transfer cfg est o s
  rcases hd : deployFailed s.start_mcu_pos s.steppers with _ | _
  · rw [finalizeTail_of_moved _ (htrans.trans hd)]
    constructor
    · constructor
      · intro h
        exact absurd h (by simp)
      · rintro ⟨q, hq, he⟩
        have : deployFailed s.start_mcu_pos s.steppers = true :=
          (deployFailed_iff _ _).mpr ⟨q, hq, he⟩
        rw [hd] at this
        exact Bool.noConfusion this
    · intro _
      refine ⟨rfl, ?_⟩
      unfold eventCount
      show (((sync_print_time
          (raise_probe cfg o (sync_mcu_print_time est s)).1).events)
          ++ [Event.senseFinalize]).countP Event.isFinalizeHook = _
      rw [List.countP_append, sync_print_time_countP _ _ (fun _ => rfl),
        raise_after_sync_countP_hook]
      simp [List.countP_cons, Event.isFinalizeHook]
  · rw [finalizeTail_of_deploy _ (htrans.trans hd)]
    constructor
    · constructor
      · intro _
        exact (deployFailed_iff _ _).mp hd
      · intro _
        rfl
    · intro hforall
      obtain ⟨q, hq, he⟩ := (deployFailed_iff _ _).mp hd
      exact absurd he (hforall q hq)

/-- Witness for claim C10: one unmoved stepper next to one moved
stepper still raises the deploy failure. -/
theorem home_finalize_deploy_check_witness :
    ((home_finalize cfgW 0 okOracle stHalfMoved).2
        = some "BLTouch failed to deploy" ↔
      ∃ q ∈ stHalfMoved.start_mcu_pos.zip stHalfMoved.steppers,
        q.2.mcu_position = q.1) ∧
    ((∀ q ∈ stHalfMoved.start_mcu_pos.zip stHalfMoved.steppers,
        q.2.mcu_position ≠ q.1) →
      (home_finalize cfgW 0 okOracle stHalfMoved).2 = none ∧
      eventCount Event.isFinalizeHook
          (home_finalize cfgW 0 okOracle stHalfMoved).1
        = eventCount Event.isFinalizeHook stHalfMoved + 1) :=
  home_finalize_deploy_check cfgW 0 okOracle stHalfMoved rfl

/-- Claim C8 counterexample: home_finalize, which is not the connection
time initialization, also performs the realtime clock synchronization
(one estimated print time query per call), already on a state that has
never seen one. -/
theorem realtime_sync_cex :
    eventCount Event.isEst (home_finalize cfgW 0 okOracle stW).1
      = eventCount Event.isEst stW + 1 ∧
    eventCount Event.isEst stW = 0 :=
  ⟨home_finalize_countP_est cfgW 0 okOracle stW, rfl⟩

/-- Claim C8 as amended: the realtime clock synchronization (the
estimated print time query feeding next_cmd_time through max) is
performed exactly once by connection time initialization and exactly
once by every home_finalize call, and by no other controller
operation. -/
theorem realtime_sync_locations (cfg : BLTConfig) (est pt st : ℚ) (sc : ℕ)
    (rt d : ℚ) (c : BLTCmd) (tr : Bool) (m : String) (o : SenseOracle)
    (s : BLTState) :
    eventCount Event.isEst (printer_state_connect cfg est o s).1
      = eventCount Event.isEst s + 1 ∧
    eventCount Event.isEst (home_finalize cfg est o s).1
      = eventCount Event.isEst s + 1 ∧
    eventCount Event.isEst (sync_print_time s) = eventCount Event.isEst s ∧
    eventCount Event.isEst ((send_cmd cfg c d s).1) = eventCount Event.isEst s ∧
    eventCount Event.isEst ((test_sensor cfg o s).1) = eventCount Event.isEst s ∧
    eventCount Event.isEst ((home_prepare cfg o s).1) = eventCount Event.isEst s ∧
    eventCount Event.isEst (home_start pt st sc rt s) = eventCount Event.isEst s ∧
    eventCount Event.isEst ((verify_state o pt st tr m s).1)
      = eventCount Event.isEst s := by
  refine ⟨connect_countP_est cfg est o s, home_finalize_countP_est cfg est o s,
    ?_, ?_, ?_, ?_, ?_, ?_⟩
  · exact sync_print_time_countP s _ (fun _ => rfl)
  · exact send_cmd_countP cfg c d s _ (fun _ _ => rfl)
  · exact test_sensor_countP cfg o s _ (fun _ _ => rfl) (fun _ _ _ _ _ => rfl)
      (fun _ => rfl) (fun _ => rfl)
  · exact home_prepare_countP cfg o s _ (fun _ _ => rfl) (fun _ _ _ _ _ => rfl)
      (fun _ => rfl) (fun _ => rfl) rfl
  · show (s.events ++ [Event.armSense pt st sc (min rt ENDSTOP_REST_TIME)
        true]).countP Event.isEst = s.events.countP Event.isEst
    rw [List.countP_append]
    simp [List.countP_cons, Event.isEst]
  · exact verify_state_countP o pt st tr m s _ (fun _ _ _ _ _ => rfl)
      (fun _ => rfl)

/-- Claim C3: across any sequence of controller operations with the
motion timeline only moving forward, neither next_cmd_time nor
next_test_time ever decreases: at any two points of a run from the
initial state, the later cursors dominate the earlier ones. -/
theorem next_times_monotone (cfg : BLTConfig) (ops1 ops2 : List Op)
    (steppers : List Stepper) (hf : 20 ≤ cfg.freq)
    (hops : (ops1 ++ ops2).all opOK = true) :
    (execList cfg ops1 (initState steppers)).next_cmd_time
      ≤ (execList cfg (ops1 ++ ops2) (initState steppers)).next_cmd_time ∧
    (execList cfg ops1 (initState steppers)).next_test_time
      ≤ (execList cfg (ops1 ++ ops2) (initState steppers)).next_test_time := by
  rw [execList_append]
  simp only [List.all_append, Bool.and_eq_true] at hops
  have hInv0 : Inv (initState steppers) := by
    norm_num [Inv, initState, TEST_TIME]
  obtain ⟨_, _, _, h4⟩ := execList_mono cfg ops1 (initState steppers) hf
    hops.1 hInv0
  obtain ⟨g1, g2, _, _⟩ := execList_mono cfg ops2 _ hf hops.2 h4
  exact ⟨g1, g2⟩

/-- Witness for claim C3 on a short concrete run. -/
theorem next_times_monotone_witness :
    ((execList cfgW [Op.syncMcu 1] (initState [])).next_cmd_time
      ≤ (execList cfgW ([Op.syncMcu 1] ++ [Op.syncPrint])
          (initState [])).next_cmd_time) ∧
    ((execList cfgW [Op.syncMcu 1] (initState [])).next_test_time
      ≤ (execList cfgW ([Op.syncMcu 1] ++ [Op.syncPrint])
          (initState [])).next_test_time) :=
  next_times_monotone cfgW [Op.syncMcu 1] [Op.syncPrint] []
    (by norm_num [cfgW]) rfl

/-- Claim C7 counterexample: when the first running call fails its
verification, the exception propagates before next_test_time is pushed
forward, so the throttle is never armed: two calls at motion times 0
and 100 (within one retest interval of 300 s) each issue three pwm
commands, refuting the unconditional at-most-one clause. -/
theorem test_sensor_throttle_cex :
    eventCount Event.isPwm (test_sensor cfgW failOracle stW).1
      = eventCount Event.isPwm stW + 3 ∧
    eventCount Event.isPwm
        (test_sensor cfgW failOracle
          { (test_sensor cfgW failOracle stW).1 with last_move_time := 100 }).1
      = eventCount Event.isPwm (test_sensor cfgW failOracle stW).1 + 3 ∧
    (test_sensor cfgW failOracle stW).1.next_test_time = stW.next_test_time ∧
    stW.last_move_time = 0 ∧
    (100 : ℚ) ≤ stW.last_move_time + TEST_TIME := by
  have hrun1 : ¬ stW.last_move_time < stW.next_test_time := by
    norm_num [stW, initState]
  have h1 : test_sensor cfgW failOracle stW
      = test_sensor_run cfgW failOracle stW :=
    test_sensor_of_run cfgW failOracle stW rfl rfl hrun1
  have hnt1 : (test_sensor cfgW failOracle stW).1.next_test_time
      = stW.next_test_time := by
    rw [h1, test_sensor_run_of_failure cfgW failOracle stW rfl]
    exact test_verify_nt cfgW failOracle stW
  have hrun2 : ¬ (({ (test_sensor cfgW failOracle stW).1 with
      last_move_time := 100 } : BLTState)).last_move_time
      < (({ (test_sensor cfgW failOracle stW).1 with
      last_move_time := 100 } : BLTState)).next_test_time := by
    show ¬ (100 : ℚ) < (test_sensor cfgW failOracle stW).1.next_test_time
    rw [hnt1]
    norm_num [stW, initState]
  have h2 : test_sensor cfgW failOracle
      { (test_sensor cfgW failOracle stW).1 with last_move_time := 100 }
      = test_sensor_run cfgW failOracle
        { (test_sensor cfgW failOracle stW).1 with last_move_time := 100 } :=
    test_sensor_of_run cfgW failOracle _ rfl rfl hrun2
  refine ⟨?_, ?_, hnt1, rfl, by norm_num [stW, initState, TEST_TIME]⟩
  · unfold eventCount
    rw [h1]
    exact test_sensor_run_countP_pwm cfgW failOracle stW
  · unfold eventCount
    rw [h2]
    exact test_sensor_run_countP_pwm cfgW failOracle _

/-- Claim C7 as amended: a call that skips the throttled self test
pushes next_test_time to the current motion time plus the retest
interval; a call that runs the test and passes its verification sets it
to the verification window end plus the retest interval; and after such
a successful run, a second call whose motion time is within one retest
interval of the first takes the skip branch, so commands are issued by
at most one of the two calls (a run whose verification fails leaves
next_test_time unchanged and forfeits the guarantee). -/
theorem test_sensor_throttle_amended (cfg : BLTConfig) (o o2 : SenseOracle)
    (s : BLTState) (t2 : ℚ) (hf : 20 ≤ cfg.freq)
    (hg1 : cfg.triggered_on_pin_up_touch_mode = true)
    (hg2 : cfg.triggered_on_pin_up = false)
    (hrun : ¬ s.last_move_time < s.next_test_time)
    (hsucc : o.success = true)
    (ht2 : t2 ≤ s.last_move_time + TEST_TIME) :
    (∀ s1 : BLTState, s1.last_move_time < s1.next_test_time →
      test_sensor cfg o2 s1
        = ({ s1 with next_test_time := s1.last_move_time + TEST_TIME }, none)) ∧
    (test_sensor cfg o s).1.next_test_time = test_check_end cfg s + TEST_TIME ∧
    (test_sensor cfg o s).2 = none ∧
    ((test_sensor cfg o2
        { (test_sensor cfg o s).1 with last_move_time := t2 }).1).events
      = ((test_sensor cfg o s).1).events := by
  have hrw : test_sensor cfg o s = test_sensor_run cfg o s :=
    test_sensor_of_run cfg o s hg1 hg2 hrun
  have hrs := test_sensor_run_of_success cfg o s hsucc
  have hnt : (test_sensor cfg o s).1.next_test_time
      = test_check_end cfg s + TEST_TIME := by
    rw [hrw, hrs]
    show (sync_print_time _).next_test_time = _
    rw [sync_print_time_next_test_time]
  refine ⟨fun s1 h1 => test_sensor_skip cfg o2 s1 hg1 hg2 h1, hnt,
    by rw [hrw, hrs], ?_⟩
  have hSlt : ({ (test_sensor cfg o s).1 with
      last_move_time := t2 } : BLTState).last_move_time
      < ({ (test_sensor cfg o s).1 with
      last_move_time := t2 } : BLTState).next_test_time := by
    show t2 < (test_sensor cfg o s).1.next_test_time
    rw [hnt]
    have := lmt_lt_test_check_end cfg s hf
    linarith
  rw [test_sensor_skip cfg o2 _ hg1 hg2 hSlt]

/-- Witness for the amended claim C7 at a concrete run and a second
call 200 seconds later. -/
theorem test_sensor_throttle_amended_witness :
    (∀ s1 : BLTState, s1.last_move_time < s1.next_test_time →
      test_sensor cfgW okOracle s1
        = ({ s1 with next_test_time := s1.last_move_time + TEST_TIME }, none)) ∧
    (test_sensor cfgW okOracle stW).1.next_test_time
      = test_check_end cfgW stW + TEST_TIME ∧
    (test_sensor cfgW okOracle stW).2 = none ∧
    ((test_sensor cfgW okOracle
        { (test_sensor cfgW okOracle stW).1 with last_move_time := 200 }).1).events
      = ((test_sensor cfgW okOracle stW).1).events :=
  test_sensor_throttle_amended cfgW okOracle okOracle stW 200 (by norm_num [cfgW])
    rfl rfl (by norm_num [stW, initState]) rfl
    (by norm_num [stW, initState, TEST_TIME])

end BLTouch
